import Mathlib

/-!
Verification development for the camera-bot photo-booth controller.

The development shallowly embeds the orchestration core of the program:

* `src/auto_trigger.rs` — the countdown/trigger state machine
  (`Waiting → Countdown(n) → … → Trigger → Waiting`, pausable to `Stopped`),
  embedded as a step function on an explicit state type, with the events
  each `next_state` invocation emits collected into a list;
* `src/main.rs` — the coordinator (`coordinate_events` / `save_snapshot`),
  embedded as a function from incoming events to the ordered list of
  side-effecting actions the handler performs;
* `src/snapshot_repo.rs` — the collision-avoiding filename generator,
  embedded over strings modelled as lists of character codes, with the
  probing loop given explicit fuel;
* `src/ui_thread.rs` — the per-pixel alpha blend `B * oneMinusAlpha + color`,
  with the float arithmetic modelled exactly over the rationals.

Durations are modelled as natural numbers (an abstract unit), machine
integers as `Nat`, and the file system as explicit lists of names.
-/

namespace CameraBot

/-! ## Trigger state machine (src/auto_trigger.rs)

The Rust code drives one `async fn next_state` per state through a
`select!` loop.  Each `next_state` invocation first performs the state's
entry effect (`Countdown` sends `EventMsg::Countdown(count)`, `Trigger`
sends `EventMsg::Trigger`) and then waits for the first decisive input:
the shutdown broadcast, a control message, or the state's timer.  Inputs
matched by a `continue` arm are absorbed and the loop waits again.

The embedding keeps the four-variant state enum.  `decisive` records, for
each state and each arriving input, whether the `select!` arm absorbs it
(`continue`), breaks with `None` (shutdown), or breaks to a successor
state.  `Trigger` is transient: its `next_state` consumes no input, so
`settle` runs it immediately, collecting its emission. -/

/-- Events broadcast by the state machine (enum `EventMsg`). -/
inductive EventMsg where
  | trigger : EventMsg
  | countdown (n : Nat) : EventMsg
deriving DecidableEq, Repr

/-- Control commands consumed by the state machine (enum `ControlMsg`). -/
inductive ControlMsg where
  | run : ControlMsg
  | stop : ControlMsg
deriving DecidableEq, Repr

/-- The state enum of `auto_trigger.rs` (`Waiting`, `Countdown`, `Trigger`,
`Stopped`).  `countdownSt n` carries the `count` field. -/
inductive TState where
  | waiting : TState
  | countdownSt (n : Nat) : TState
  | triggerSt : TState
  | stopped : TState
deriving DecidableEq, Repr

/-- Inputs a `next_state` invocation can wake up on: expiry of the armed
`sleep`, a control message, or the shutdown broadcast. -/
inductive TInput where
  | timeout : TInput
  | ctrl (m : ControlMsg) : TInput
  | exitSig : TInput
deriving DecidableEq, Repr

/-- Outcome of one `select!` arm for a given state and input. -/
inductive Decision where
  | absorb : Decision
  | halt : Decision
  | goto (s : TState) : Decision
deriving DecidableEq, Repr

/-- Entry emission of each state: `Countdown::next_state` sends
`EventMsg::Countdown(self.count)` before waiting (line 152-154), and
`Trigger::next_state` sends `EventMsg::Trigger` (line 195). -/
def entryEmit : TState → List EventMsg
  | .countdownSt n => [.countdown n]
  | .triggerSt => [.trigger]
  | _ => []

/-- Decisive handling of one input per state, read off the `select!` arms
of each `next_state` (`k` is the configured countdown depth passed to the
machine, used by `Waiting` when its timer fires):

* `Waiting` (lines 113-138): shutdown halts; `Stop` breaks to `Stopped`;
  `Run` (or a closed channel) is absorbed; timer expiry breaks to
  `Countdown(countdown)`.
* `Countdown n` (lines 150-182): shutdown halts; `Stop` breaks to
  `Stopped`; `Run` is absorbed; timer expiry decrements `count` and breaks
  to `Countdown(n-1)` when positive, else to `Trigger`.
* `Stopped` (lines 208-226): shutdown halts; `Run` breaks to `Waiting`;
  `Stop` is absorbed; there is no timer arm, so timers are ignored.
* `Trigger` (lines 193-197): consumes no input, returns `Waiting`
  immediately; this row is unreachable to the driver because `settle`
  never leaves the machine resting in `Trigger`. -/
def decisive (k : Nat) : TState → TInput → Decision
  | .waiting, .exitSig => .halt
  | .waiting, .ctrl .stop => .goto .stopped
  | .waiting, .ctrl .run => .absorb
  | .waiting, .timeout => .goto (.countdownSt k)
  | .countdownSt _, .exitSig => .halt
  | .countdownSt _, .ctrl .stop => .goto .stopped
  | .countdownSt _, .ctrl .run => .absorb
  | .countdownSt n, .timeout =>
      .goto (if n - 1 > 0 then .countdownSt (n - 1) else .triggerSt)
  | .stopped, .exitSig => .halt
  | .stopped, .ctrl .run => .goto .waiting
  | .stopped, .ctrl .stop => .absorb
  | .stopped, .timeout => .absorb
  | .triggerSt, _ => .goto .waiting

/-- Entering a state: perform its entry emission, and run the transient
`Trigger` state through to `Waiting` (its `next_state` emits and returns
without consuming any input). -/
def settle : TState → TState × List EventMsg
  | .triggerSt => (.waiting, [.trigger])
  | s => (s, entryEmit s)

/-- One driver step of the machine on one arriving input: apply the
state's `select!` decision, entering (and settling) the successor state.
`none` models the driver loop in `auto_trigger` (lines 84-90) breaking on
shutdown. -/
def stepInput (k : Nat) (s : TState) (i : TInput) : Option TState × List EventMsg :=
  match decisive k s i with
  | .absorb => (some s, [])
  | .halt => (none, [])
  | .goto s' => (some (settle s').1, (settle s').2)

/-- Run the machine from state `s` over a list of arriving inputs,
collecting all emitted events in order.  Processing stops when the
shutdown signal halts the driver loop. -/
def runInputs (k : Nat) : TState → List TInput → Option TState × List EventMsg
  | s, [] => (some s, [])
  | s, i :: rest =>
    match stepInput k s i with
    | (none, evs) => (none, evs)
    | (some s', evs) =>
      let r := runInputs k s' rest
      (r.1, evs ++ r.2)

/-- Descending sequence `[n, n-1, …, 1]` of countdown steps. -/
def descSeq : Nat → List Nat
  | 0 => []
  | n + 1 => (n + 1) :: descSeq n

theorem mem_descSeq : ∀ n x, x ∈ descSeq n ↔ 1 ≤ x ∧ x ≤ n := by
  intro n
  induction n with
  | zero => intro x; simp only [descSeq, List.not_mem_nil, false_iff]; omega
  | succ m ih =>
    intro x
    simp only [descSeq, List.mem_cons, ih]
    omega

theorem descSeq_pairwise (n : Nat) : List.Pairwise (· > ·) (descSeq n) := by
  induction n with
  | zero => simp [descSeq]
  | succ m ih =>
    refine List.pairwise_cons.mpr ⟨?_, ih⟩
    intro x hx
    exact Nat.lt_succ_of_le ((mem_descSeq m x).mp hx).2

theorem runInputs_cons (k : Nat) (s : TState) (i : TInput) (rest : List TInput) :
    runInputs k s (i :: rest) =
      match stepInput k s i with
      | (none, evs) => (none, evs)
      | (some s', evs) => ((runInputs k s' rest).1, evs ++ (runInputs k s' rest).2) := rfl

theorem runInputs_countdownSt (k : Nat) :
    ∀ n, runInputs k (.countdownSt (n + 1)) (List.replicate (n + 1) .timeout) =
      (some .waiting, (descSeq n).map EventMsg.countdown ++ [.trigger]) := by
  intro n
  induction n with
  | zero =>
    simp [runInputs, stepInput, decisive, settle, descSeq, List.replicate]
  | succ m ih =>
    have hstep : stepInput k (.countdownSt (m + 2)) .timeout =
        (some (.countdownSt (m + 1)), [.countdown (m + 1)]) := by
      norm_num [stepInput, decisive, settle, entryEmit]
    have hrep : List.replicate (m + 2) TInput.timeout =
        .timeout :: List.replicate (m + 1) .timeout := rfl
    rw [hrep, runInputs_cons, hstep]
    dsimp only
    rw [ih]
    simp only [descSeq, List.map_cons, List.cons_append, List.nil_append]

/-- Timed model of the `Waiting` select loop (auto_trigger.rs lines
115-136).  The loop body re-evaluates `sleep(self.data.params.timeout.unwrap())`
on every iteration, so an iteration beginning at absolute time `t0` arms a
deadline of `t0 + T`.  `msgs` lists the control messages arriving while
the machine sits in `Waiting`, as (absolute arrival time, message) pairs
in arrival order; a message arriving strictly before the current deadline
wins the `select!`.  `Run` (absorbed, `continue`) begins a new loop
iteration at its arrival time — with a freshly constructed sleep — while
`Stop` breaks to `Stopped`, so the timer never fires (`none`).  With no
message before the deadline the timer fires at the deadline. -/
def waitingFireTime (T : Nat) : Nat → List (Nat × ControlMsg) → Option Nat
  | t0, [] => some (t0 + T)
  | t0, (tm, m) :: rest =>
    if tm < t0 + T then
      match m with
      | .stop => none
      | .run => waitingFireTime T tm rest
    else some (t0 + T)

/-- The sleep duration each state arms, read off the `sleep(..)` calls:
`Waiting` arms `params.timeout.unwrap()` (the full
`timeout_until_countdown`, line 128), `Countdown` arms
`params.timeout_between` (line 168), and `Trigger` and `Stopped` arm no
timer at all.  `tUntil` and `tBetween` stand for the two configured
durations. -/
def armedSleep (tUntil tBetween : Nat) : TState → Option Nat
  | .waiting => some tUntil
  | .countdownSt _ => some tBetween
  | .triggerSt => none
  | .stopped => none

/-- C1: for every countdown depth `k ≥ 1`, an autonomous cycle driven only
by timer expiries (no Stop command, no shutdown) emits exactly
`Countdown(k), Countdown(k-1), …, Countdown(1)` — each emitted exactly
once, on entry to the corresponding `Countdown` state, in strictly
decreasing order — followed by exactly one `Trigger`, and leaves the
machine back in `Waiting`.  The `k + 1` timer expiries are the one that
ends `Waiting` plus the `k` that end the countdown steps; the event list
equality pins every emission and its order, and the `Pairwise` conjunct
makes the strict decrease of `descSeq k = [k, …, 1]` explicit. -/
theorem C1_autonomous_cycle_events (k : Nat) (hk : 1 ≤ k) :
    runInputs k .waiting (List.replicate (k + 1) .timeout) =
      (some .waiting, (descSeq k).map EventMsg.countdown ++ [.trigger]) ∧
    List.Pairwise (· > ·) (descSeq k) ∧
    (∀ x, x ∈ descSeq k ↔ 1 ≤ x ∧ x ≤ k) := by
  refine ⟨?_, descSeq_pairwise k, mem_descSeq k⟩
  obtain ⟨m, rfl⟩ : ∃ m, k = m + 1 := ⟨k - 1, by omega⟩
  have hstep : stepInput (m + 1) .waiting .timeout =
      (some (.countdownSt (m + 1)), [.countdown (m + 1)]) := rfl
  have hrep : List.replicate (m + 1 + 1) TInput.timeout =
      .timeout :: List.replicate (m + 1) .timeout := rfl
  rw [hrep, runInputs_cons, hstep]
  dsimp only
  rw [runInputs_countdownSt]
  simp only [descSeq, List.map_cons, List.cons_append, List.nil_append]

/-- Witness for C1 at depth `k = 3`: three countdown events then the
trigger, back to `Waiting`. -/
theorem C1_autonomous_cycle_events_witness :
    (1 ≤ 3) ∧
    (runInputs 3 .waiting (List.replicate 4 .timeout) =
      (some .waiting, (descSeq 3).map EventMsg.countdown ++ [.trigger]) ∧
    List.Pairwise (· > ·) (descSeq 3) ∧
    (∀ x, x ∈ descSeq 3 ↔ 1 ≤ x ∧ x ≤ 3)) :=
  ⟨by decide, C1_autonomous_cycle_events 3 (by decide)⟩

/-- C5: a `Stop` received in `Waiting` or in any `Countdown(n)` moves the
machine to `Stopped` emitting nothing; no control message ever causes a
`Trigger` emission and nothing at all is emitted while `Stopped`, so the
interrupted cycle never emits `Trigger`; a subsequent `Run` moves
`Stopped` back to `Waiting` emitting nothing; and `Waiting` arms the full
`timeout_until_countdown` sleep — entered at time `t0` with no further
commands, its timer fires at `t0 + tUntil`, the whole duration afresh. -/
theorem C5_stop_aborts_cycle_run_resumes (k n tUntil tBetween : Nat) :
    stepInput k .waiting (.ctrl .stop) = (some .stopped, []) ∧
    stepInput k (.countdownSt n) (.ctrl .stop) = (some .stopped, []) ∧
    (∀ s m, EventMsg.trigger ∉ (stepInput k s (.ctrl m)).2) ∧
    (∀ i, (stepInput k .stopped i).2 = []) ∧
    stepInput k .stopped (.ctrl .run) = (some .waiting, []) ∧
    armedSleep tUntil tBetween .waiting = some tUntil ∧
    (∀ t0, waitingFireTime tUntil t0 [] = some (t0 + tUntil)) := by
  refine ⟨rfl, rfl, ?_, ?_, rfl, rfl, fun t0 => rfl⟩
  · intro s m
    cases s <;> cases m <;> simp [stepInput, decisive, settle, entryEmit]
  · intro i
    cases i with
    | timeout => rfl
    | exitSig => rfl
    | ctrl m => cases m <;> rfl

/-- C6 counterexample: the claim asserts an absorbed command leaves the
pending timer deadline unchanged.  In `Waiting` with
`timeout_until_countdown = 10`, entered at time 0, a `Run` absorbed at
time 5 makes the timer fire at 15, not at the original deadline 10 — the
loop re-evaluates `sleep(..)` after the `continue`, so the absorbed
command restarts the timer. -/
theorem C6_counterexample :
    waitingFireTime 10 0 [(5, .run)] ≠ waitingFireTime 10 0 [] ∧
    waitingFireTime 10 0 [(5, .run)] = some 15 ∧
    waitingFireTime 10 0 [] = some 10 := by decide

/-- C6 amended: a `Run` received in `Waiting` or `Countdown`, and a `Stop`
received in `Stopped`, are absorbed as no-ops with respect to state and
events: the machine stays in the same state and emits nothing, and
`Stopped` has no timer at all.  However the pending timer deadline is NOT
preserved: the `select!` loop constructs a fresh `sleep` on every
iteration, so a `Run` absorbed in `Waiting` at time `tm` (before the
current deadline) restarts the full timeout from `tm`. -/
theorem C6_absorbed_commands_noop_but_restart_timer
    (k n tUntil tBetween T t0 tm : Nat) (rest : List (Nat × ControlMsg))
    (h : tm < t0 + T) :
    stepInput k .waiting (.ctrl .run) = (some .waiting, []) ∧
    stepInput k (.countdownSt n) (.ctrl .run) = (some (.countdownSt n), []) ∧
    stepInput k .stopped (.ctrl .stop) = (some .stopped, []) ∧
    armedSleep tUntil tBetween .stopped = none ∧
    waitingFireTime T t0 ((tm, .run) :: rest) = waitingFireTime T tm rest := by
  refine ⟨rfl, rfl, rfl, rfl, ?_⟩
  simp [waitingFireTime, h]

/-- Witness for C6 amended at `k = 1`, `n = 2`, `T = 10`, `t0 = 0`,
`tm = 5`, no further messages. -/
theorem C6_absorbed_commands_noop_but_restart_timer_witness :
    (5 < 0 + 10) ∧
    (stepInput 1 .waiting (.ctrl .run) = (some .waiting, []) ∧
    stepInput 1 (.countdownSt 2) (.ctrl .run) = (some (.countdownSt 2), []) ∧
    stepInput 1 .stopped (.ctrl .stop) = (some .stopped, []) ∧
    armedSleep 10 1 .stopped = none ∧
    waitingFireTime 10 0 [(5, .run)] = waitingFireTime 10 5 []) :=
  ⟨by decide, C6_absorbed_commands_noop_but_restart_timer 1 2 10 1 10 0 5 [] (by decide)⟩

/-- States the machine can actually rest in when configured with depth
`k`: any `Countdown(n)` has `1 ≤ n ≤ k`. -/
def goodSt (k : Nat) : TState → Prop
  | .countdownSt n => 1 ≤ n ∧ n ≤ k
  | _ => True

theorem stepInput_events_bound (k : Nat) (hk : 1 ≤ k) :
    ∀ (s : TState), goodSt k s → ∀ (i : TInput) (n : Nat),
      EventMsg.countdown n ∈ (stepInput k s i).2 → 1 ≤ n ∧ n ≤ k := by
  intro s hs i n hn
  cases s with
  | waiting =>
    cases i with
    | timeout =>
      simp [stepInput, decisive, settle, entryEmit] at hn
      omega
    | ctrl m => cases m <;> simp [stepInput, decisive, settle, entryEmit] at hn
    | exitSig => simp [stepInput, decisive] at hn
  | countdownSt c =>
    have hs' : 1 ≤ c ∧ c ≤ k := hs
    cases i with
    | timeout =>
      by_cases h : c - 1 > 0
      · simp [stepInput, decisive, settle, entryEmit, h] at hn
        omega
      · simp [stepInput, decisive, settle, entryEmit, h] at hn
    | ctrl m => cases m <;> simp [stepInput, decisive, settle, entryEmit] at hn
    | exitSig => simp [stepInput, decisive] at hn
  | triggerSt =>
    cases i <;> simp [stepInput, decisive, settle, entryEmit] at hn
  | stopped =>
    cases i with
    | timeout => simp [stepInput, decisive] at hn
    | ctrl m => cases m <;> simp [stepInput, decisive, settle, entryEmit] at hn
    | exitSig => simp [stepInput, decisive] at hn

theorem stepInput_preserves_good (k : Nat) (hk : 1 ≤ k) :
    ∀ (s : TState), goodSt k s → ∀ (i : TInput) (s' : TState),
      (stepInput k s i).1 = some s' → goodSt k s' := by
  intro s hs i s' h
  cases s with
  | waiting =>
    cases i with
    | timeout =>
      simp [stepInput, decisive, settle, entryEmit] at h
      subst h
      exact ⟨hk, le_refl k⟩
    | ctrl m =>
      cases m <;> simp [stepInput, decisive, settle, entryEmit] at h <;>
        subst h <;> trivial
    | exitSig => simp [stepInput, decisive] at h
  | countdownSt c =>
    have hs' : 1 ≤ c ∧ c ≤ k := hs
    cases i with
    | timeout =>
      by_cases hc : c - 1 > 0
      · simp [stepInput, decisive, settle, entryEmit, hc] at h
        subst h
        exact ⟨by omega, by omega⟩
      · simp [stepInput, decisive, settle, entryEmit, hc] at h
        subst h
        trivial
    | ctrl m =>
      cases m <;> simp [stepInput, decisive, settle, entryEmit] at h <;>
        subst h
      · exact hs
      · trivial
    | exitSig => simp [stepInput, decisive] at h
  | triggerSt =>
    cases i <;> simp [stepInput, decisive, settle, entryEmit] at h <;>
      subst h <;> trivial
  | stopped =>
    cases i with
    | timeout =>
      simp [stepInput, decisive] at h
      subst h
      trivial
    | ctrl m =>
      cases m <;> simp [stepInput, decisive, settle, entryEmit] at h <;>
        subst h <;> trivial
    | exitSig => simp [stepInput, decisive] at h

theorem runInputs_events_cons (k : Nat) (s : TState) (i : TInput) (rest : List TInput) :
    (runInputs k s (i :: rest)).2 =
      (stepInput k s i).2 ++
        (match (stepInput k s i).1 with
          | none => []
          | some s' => (runInputs k s' rest).2) := by
  rw [runInputs_cons]
  rcases h : stepInput k s i with ⟨os, evs⟩
  cases os <;> simp

theorem runInputs_countdown_bound (k : Nat) (hk : 1 ≤ k) :
    ∀ (ins : List TInput) (s : TState), goodSt k s →
      ∀ n, EventMsg.countdown n ∈ (runInputs k s ins).2 → 1 ≤ n ∧ n ≤ k := by
  intro ins
  induction ins with
  | nil => intro s _ n hn; simp [runInputs] at hn
  | cons i rest ih =>
    intro s hs n hn
    rw [runInputs_events_cons, List.mem_append] at hn
    rcases hn with hn | hn
    · exact stepInput_events_bound k hk s hs i n hn
    · rcases h : (stepInput k s i).1 with _ | s'
      · rw [h] at hn; simp at hn
      · rw [h] at hn
        exact ih s' (stepInput_preserves_good k hk s hs i s' h) n hn

/-! ## Coordinator (src/main.rs)

`coordinate_events` is a single-task `select!` loop over the UI event
channel and the trigger event channel; each handler (including the whole
of `save_snapshot`) is awaited inline inside the arm, so the loop cannot
observe another event until the handler has completed.  The embedding
turns each handled event into the ordered list of side-effecting actions
the handler performs; overlay images (`AlphaImage`) are an abstract type
`Ov`. -/

/-- Control commands the coordinator sends to the display thread
(enum `ControlMsg` of ui_thread.rs). -/
inductive UiControlMsg (Ov : Type) where
  | blend (img : Option Ov) : UiControlMsg Ov
  | freeze : UiControlMsg Ov
  | live : UiControlMsg Ov
deriving DecidableEq, Repr

/-- Events produced by the display thread
(enum `EventMsg` of ui_thread.rs). -/
inductive UiEventMsg where
  | keyPressed (key : Int) : UiEventMsg
  | windowClosed : UiEventMsg
deriving DecidableEq, Repr

/-- Side effects of the coordinator, in the order it performs them. -/
inductive Action (Ov : Type) where
  | trigCtrl (m : ControlMsg) : Action Ov
  | snapshotRequest : Action Ov
  | snapshotAwait : Action Ov
  | uiCtrl (m : UiControlMsg Ov) : Action Ov
  | saveFrame : Action Ov
  | sleepFreeze : Action Ov
deriving DecidableEq, Repr

/-- Key codes of main.rs lines 22-23. -/
def KEY_ESCAPE : Int := 27

def KEY_ENTER : Int := 13

/-- Action trace of `save_snapshot` (main.rs lines 187-231), in source
order: send `Stop` to the trigger machine; create the oneshot channel and
send `Command::Snapshot(s)` to the capture thread; await the response;
send `Blend(snapshot_blend_image)` then `Freeze` to the display; persist
via `repo.save_frame`; sleep the freeze duration; send `Blend(None)` then
`Live` to the display; send `Run` to the trigger machine. -/
def save_snapshot {Ov : Type} (snapshot_blend_image : Option Ov) : List (Action Ov) :=
  [ .trigCtrl .stop,
    .snapshotRequest,
    .snapshotAwait,
    .uiCtrl (.blend snapshot_blend_image),
    .uiCtrl .freeze,
    .saveFrame,
    .sleepFreeze,
    .uiCtrl (.blend none),
    .uiCtrl .live,
    .trigCtrl .run ]

/-- Events the coordinator's `select!` can receive. -/
inductive CoordEvent where
  | uiMsg (m : UiEventMsg) : CoordEvent
  | trigMsg (m : EventMsg) : CoordEvent
deriving DecidableEq, Repr

/-- Handling of one received event by `coordinate_events` (main.rs lines
119-162): the action list the handler performs, and whether the loop
continues (`false` models the `return` on Escape / window close).
`Countdown(n)` sends `Blend(countdown_blend_images.get(n-1).cloned())`,
a checked (`Option`-returning) lookup at index `n - 1`. -/
def handle_event {Ov : Type} (snapshot_blend_image : Option Ov)
    (countdown_blend_images : List Ov) : CoordEvent → List (Action Ov) × Bool
  | .uiMsg (.keyPressed key) =>
    if key = KEY_ENTER then (save_snapshot snapshot_blend_image, true)
    else if key = KEY_ESCAPE then ([], false)
    else ([], true)
  | .uiMsg .windowClosed => ([], false)
  | .trigMsg .trigger => (save_snapshot snapshot_blend_image, true)
  | .trigMsg (.countdown n) =>
    ([.uiCtrl (.blend countdown_blend_images[n - 1]?)], true)

/-- The coordinator loop over a list of received events: each event's
handler runs to completion — contributing its whole action list — before
the next event is looked at; a handler that returns stops the loop. -/
def coordinate_events {Ov : Type} (snapshot_blend_image : Option Ov)
    (countdown_blend_images : List Ov) : List CoordEvent → List (Action Ov)
  | [] => []
  | e :: rest =>
    let (acts, cont) := handle_event snapshot_blend_image countdown_blend_images e
    acts ++ (if cont then
      coordinate_events snapshot_blend_image countdown_blend_images rest else [])

/-- The snapshot sequence exactly as §4.3 of the spec words it:
(1) `Stop` to the state machine; (2) request and await one still frame via
the oneshot handshake; (3) `Blend(overlay)` and only afterwards `Freeze`;
(4) persist through the repo; (5) sleep the freeze duration;
(6) `Blend(None)`, `Live`, `Run`.  Stated from the spec to be compared
with the source-derived `save_snapshot`. -/
def snapshotSequenceSpec {Ov : Type} (overlay : Option Ov) : List (Action Ov) :=
  [.trigCtrl .stop] ++
  [.snapshotRequest, .snapshotAwait] ++
  [.uiCtrl (.blend overlay), .uiCtrl .freeze] ++
  [.saveFrame] ++
  [.sleepFreeze] ++
  [.uiCtrl (.blend none), .uiCtrl .live, .trigCtrl .run]

/-- C2: `KeyPressed(ENTER)` and a `Trigger` event (autonomous or remote —
both arrive as `EventMsg::Trigger` on the trigger channel) invoke the
identical snapshot sequence, whose action order matches the spec's six
steps exactly — in particular `Blend(overlay)` strictly precedes `Freeze`
— and the coordinator contributes the complete sequence before any later
event is handled. -/
theorem C2_snapshot_sequence {Ov : Type} (img : Option Ov) (overlays : List Ov)
    (rest : List CoordEvent) :
    handle_event img overlays (.uiMsg (.keyPressed KEY_ENTER)) =
      (save_snapshot img, true) ∧
    handle_event img overlays (.trigMsg .trigger) = (save_snapshot img, true) ∧
    save_snapshot img = snapshotSequenceSpec img ∧
    coordinate_events img overlays (.trigMsg .trigger :: rest) =
      save_snapshot img ++ coordinate_events img overlays rest ∧
    coordinate_events img overlays (.uiMsg (.keyPressed KEY_ENTER) :: rest) =
      save_snapshot img ++ coordinate_events img overlays rest :=
  ⟨rfl, rfl, rfl, rfl, rfl⟩

/-- C9: with depth `k ≥ 1`, every `Countdown(n)` the machine emits along
any input sequence from `Waiting` satisfies `1 ≤ n ≤ k` (so the machine's
own `count -= 1` and the coordinator's `n - 1` never underflow, witnessed
by `n - 1 + 1 = n`); and the coordinator's overlay lookup is the checked
`get`, producing `Blend(None)` — not a failure — whenever `n - 1` falls
outside the configured overlay list. -/
theorem C9_countdown_events_safe (k : Nat) (hk : 1 ≤ k) (ins : List TInput) :
    (∀ n, EventMsg.countdown n ∈ (runInputs k .waiting ins).2 →
      1 ≤ n ∧ n ≤ k ∧ n - 1 + 1 = n) ∧
    (∀ (Ov : Type) (img : Option Ov) (overlays : List Ov) (n : Nat),
      overlays.length ≤ n - 1 →
        handle_event img overlays (.trigMsg (.countdown n)) =
          ([.uiCtrl (.blend none)], true)) ∧
    (∀ (Ov : Type) (img : Option Ov) (overlays : List Ov) (n : Nat),
      handle_event img overlays (.trigMsg (.countdown n)) =
        ([.uiCtrl (.blend overlays[n - 1]?)], true)) := by
  refine ⟨?_, ?_, ?_⟩
  · intro n hn
    have h := runInputs_countdown_bound k hk ins .waiting trivial n hn
    exact ⟨h.1, h.2, by omega⟩
  · intro Ov img overlays n h
    simp [handle_event, List.getElem?_eq_none h]
  · intro Ov img overlays n
    rfl

/-- Witness for C9 at `k = 2` with the input list of one full cycle. -/
theorem C9_countdown_events_safe_witness :
    (1 ≤ 2) ∧
    ((∀ n, EventMsg.countdown n ∈
        (runInputs 2 .waiting [.timeout, .timeout, .timeout]).2 →
      1 ≤ n ∧ n ≤ 2 ∧ n - 1 + 1 = n) ∧
    (∀ (Ov : Type) (img : Option Ov) (overlays : List Ov) (n : Nat),
      overlays.length ≤ n - 1 →
        handle_event img overlays (.trigMsg (.countdown n)) =
          ([.uiCtrl (.blend none)], true)) ∧
    (∀ (Ov : Type) (img : Option Ov) (overlays : List Ov) (n : Nat),
      handle_event img overlays (.trigMsg (.countdown n)) =
        ([.uiCtrl (.blend overlays[n - 1]?)], true))) :=
  ⟨by decide, C9_countdown_events_safe 2 (by decide) [.timeout, .timeout, .timeout]⟩

/-! ## Display compositing (src/ui_thread.rs)

Each pass of `ui_event_loop` with a blending image set computes
`multiply(frame_f, blending_image.beta())` followed by
`add(tmp_1_f, blending_image.rgb())` (lines 129-141): elementwise
`blended = B * oneMinusAlpha + color`.  The float matrices are modelled
exactly over `ℚ`; a frame over an index set `ι` (pixel positions ×
channels — matching dimensions means one shared `ι`) is a function
`ι → ℚ`. -/

/-- Elementwise blend `B * oneMinusAlpha + color` of ui_event_loop. -/
def blendFrame {ι : Type} (B oneMinusAlpha color : ι → ℚ) : ι → ℚ :=
  fun i => B i * oneMinusAlpha i + color i

/-- C8: under a fully-opaque overlay (`oneMinusAlpha ≡ 0`) the blend
equals `color` for every background `B`; under a fully-transparent
overlay (`oneMinusAlpha ≡ 1`, `color ≡ 0`) it equals `B`. -/
theorem C8_blend_identities {ι : Type} (B oma color : ι → ℚ) :
    ((∀ i, oma i = 0) → blendFrame B oma color = color) ∧
    ((∀ i, oma i = 1) → (∀ i, color i = 0) → blendFrame B oma color = B) := by
  constructor
  · intro h
    funext i
    simp [blendFrame, h i]
  · intro h h0
    funext i
    simp [blendFrame, h i, h0 i]

/-- Witness for C8 on a concrete 3-pixel frame. -/
theorem C8_blend_identities_witness :
    (blendFrame (fun i : Fin 3 => (i : ℚ) + 5) (fun _ => 0) (fun i => (i : ℚ)) =
      fun i : Fin 3 => (i : ℚ)) ∧
    (blendFrame (fun i : Fin 3 => (i : ℚ) + 5) (fun _ => 1) (fun _ => 0) =
      fun i : Fin 3 => (i : ℚ) + 5) :=
  ⟨(C8_blend_identities _ _ _).1 (fun _ => rfl),
   (C8_blend_identities _ _ _).2 (fun _ => rfl) (fun _ => rfl)⟩

/-! ## Snapshot repository (src/snapshot_repo.rs)

Strings are modelled as lists of Unicode code points (`List Nat`), the
directory content as the list of filenames already present, and the
`while filename.exists()` probing loop with explicit fuel bounding the
number of collision retries.

`get_filename` first formats the current wall-clock time into the
template (`chrono::Local::now().format(&self.name)`) — modelled by the
opaque, externally supplied string `now` — and substitutes the counter
into the result; each collision retry, however, substitutes the
incremented counter into the RAW template `self.name` (lines 48-50 use
`self.name`, not `now`).  The embedding reproduces this asymmetry
faithfully. -/

/-- Character codes of a string literal. -/
def strCodes (s : String) : List Nat := s.toList.map Char.toNat

/-- Replacement of every occurrence of the placeholder `"$COUNTER$"`
(codes `[36, 67, 79, 85, 78, 84, 69, 82, 36]`) by `rep`, leftmost-first
and non-overlapping — the semantics of Rust's `str::replace`. -/
def replaceCounter (rep : List Nat) : List Nat → List Nat
  | 36 :: 67 :: 79 :: 85 :: 78 :: 84 :: 69 :: 82 :: 36 :: t =>
      rep ++ replaceCounter rep t
  | c :: t => c :: replaceCounter rep t
  | [] => []

/-- Number of (leftmost, non-overlapping) occurrences of `"$COUNTER$"`. -/
def countOcc : List Nat → Nat
  | 36 :: 67 :: 79 :: 85 :: 78 :: 84 :: 69 :: 82 :: 36 :: t => 1 + countOcc t
  | c :: t =>
      have _ := c
      countOcc t
  | [] => 0

/-- Little-endian decimal digits of `n`, with fuel (`fuel ≥ n` is always
enough since the argument shrinks by a factor of ten). -/
def decRevAux : Nat → Nat → List Nat
  | 0, n => [n % 10]
  | fuel + 1, n => if n < 10 then [n] else n % 10 :: decRevAux fuel (n / 10)

/-- Little-endian decimal digits of `n`. -/
def decRev (n : Nat) : List Nat := decRevAux n n

/-- Decimal string of `n` as character codes — the model of
`usize::to_string` (`'0'` has code 48). -/
def natToDec (n : Nat) : List Nat := ((decRev n).map (fun d => 48 + d)).reverse

/-- Value of a little-endian digit list. -/
def decVal : List Nat → Nat
  | [] => 0
  | d :: ds => d + 10 * decVal ds

theorem decVal_decRevAux : ∀ (fuel n : Nat), n ≤ fuel →
    decVal (decRevAux fuel n) = n := by
  intro fuel
  induction fuel with
  | zero =>
    intro n hn
    interval_cases n
    rfl
  | succ f ih =>
    intro n hn
    by_cases h : n < 10
    · simp [decRevAux, h, decVal]
    · have hdiv : n / 10 ≤ f := by omega
      simp only [decRevAux, if_neg h, decVal, ih (n / 10) hdiv]
      omega

theorem natToDec_injective : Function.Injective natToDec := by
  have hrev : Function.Injective decRev := by
    intro a b hab
    have ha := decVal_decRevAux a a (le_refl a)
    have hb := decVal_decRevAux b b (le_refl b)
    simp only [decRev] at hab
    rw [← ha, ← hb, hab]
  intro a b hab
  apply hrev
  have h48 : Function.Injective (fun d : Nat => 48 + d) := by
    intro x y h
    simpa using h
  exact List.map_injective_iff.mpr h48 (List.reverse_injective hab)

theorem replaceCounter_length (rep t : List Nat) :
    (replaceCounter rep t).length + countOcc t * 9 =
      t.length + countOcc t * rep.length := by
  induction t using replaceCounter.induct rep with
  | case1 t ih => simp [replaceCounter, countOcc, Nat.add_mul]; omega
  | case2 c t h ih =>
    rw [replaceCounter.eq_2 rep c t h, countOcc.eq_2 c t h]
    simp only [List.length_cons]
    omega
  | case3 => simp [replaceCounter, countOcc]

theorem replaceCounter_inj_aux (rep1 rep2 : List Nat)
    (hlen : rep1.length = rep2.length) :
    ∀ t, replaceCounter rep1 t = replaceCounter rep2 t →
      countOcc t = 0 ∨ rep1 = rep2 := by
  intro t
  induction t using replaceCounter.induct rep1 with
  | case1 t ih =>
    intro h
    simp only [replaceCounter] at h
    exact Or.inr (List.append_inj h hlen).1
  | case2 c t hne ih =>
    intro h
    rw [replaceCounter.eq_2 rep1 c t hne, replaceCounter.eq_2 rep2 c t hne] at h
    rcases ih (List.cons.inj h).2 with h0 | h0
    · left
      rw [countOcc.eq_2 c t hne]
      exact h0
    · exact Or.inr h0
  | case3 => exact fun _ => Or.inl rfl

/-- Substituting two different counters into a template that contains the
placeholder yields two different names. -/
theorem render_injective (name : List Nat) (hocc : 0 < countOcc name) :
    Function.Injective (fun c => replaceCounter (natToDec c) name) := by
  intro c1 c2 h
  simp only at h
  have l1 := replaceCounter_length (natToDec c1) name
  have l2 := replaceCounter_length (natToDec c2) name
  rw [h] at l1
  have hlen : (natToDec c1).length = (natToDec c2).length := by
    have := l1.symm.trans l2
    have h9 :
        countOcc name * (natToDec c1).length = countOcc name * (natToDec c2).length := by
      omega
    exact Nat.eq_of_mul_eq_mul_left hocc h9
  rcases replaceCounter_inj_aux (natToDec c1) (natToDec c2) hlen name h with h0 | h0
  · omega
  · exact natToDec_injective h0

/-- The `while filename.exists()` loop of `get_filename` (snapshot_repo.rs
lines 45-51) over the set `files` of existing names: while the candidate
exists, increment the counter and recompute the candidate from the RAW
template `name` (the code's `self.name.replace(..)`).  `fuel` bounds the
number of retries; `none` means the loop was still colliding after `fuel`
retries, `some (filename, counter)` that it returned `filename` leaving
the repo counter at `counter`. -/
def probe (name : List Nat) (files : List (List Nat)) :
    Nat → Nat → List Nat → Option (List Nat × Nat)
  | 0, counter, filename =>
    if filename ∈ files then none else some (filename, counter)
  | fuel + 1, counter, filename =>
    if filename ∈ files then
      probe name files fuel (counter + 1)
        (replaceCounter (natToDec (counter + 1)) name)
    else some (filename, counter)

/-- The whole of `get_filename` (snapshot_repo.rs lines 40-54): the
initial candidate substitutes the current counter into `now` — the
template with its time directives already formatted for the current
instant — and the probing loop retries on the raw template. -/
def get_filename (name now : List Nat) (files : List (List Nat))
    (counter fuel : Nat) : Option (List Nat × Nat) :=
  probe name files fuel counter (replaceCounter (natToDec counter) now)

/-- The counter effect of `save_frame` (snapshot_repo.rs lines 31-38):
obtain the filename from `get_filename` (whose collision loop may itself
have advanced the counter), write, then increment the counter once
(`self.counter += 1`). -/
def save_frame (name now : List Nat) (files : List (List Nat))
    (counter fuel : Nat) : Option (List Nat × Nat) :=
  (get_filename name now files counter fuel).map (fun r => (r.1, r.2 + 1))

/-- Paths are lists of name components; `create_dir_all p` creates `p`
and every ancestor of it, i.e. every prefix of `p`. -/
def create_dir_all (p : List (List Nat)) : List (List (List Nat)) :=
  (List.range (p.length + 1)).map (fun i => p.take i)

/-- The directories `save_frame` creates before writing: the code passes
`Path::new(self.path.as_path()).parent().unwrap()` — the parent
`path.dropLast`, not `path` itself — to `create_dir_all`
(snapshot_repo.rs line 33). -/
def save_frame_dirs (path : List (List Nat)) : List (List (List Nat)) :=
  create_dir_all path.dropLast

theorem probe_free (name : List Nat) (files : List (List Nat))
    (fuel c : Nat) (fn : List Nat) (h : fn ∉ files) :
    probe name files fuel c fn = some (fn, c) := by
  cases fuel <;> simp [probe, h]

theorem probe_success (name : List Nat) (files : List (List Nat)) :
    ∀ (F c : Nat) (fn : List Nat),
      (fn ∉ files ∨ ∃ j, c + 1 ≤ j ∧ j ≤ c + F ∧
        replaceCounter (natToDec j) name ∉ files) →
      ∃ fn2 c2, probe name files F c fn = some (fn2, c2) ∧ fn2 ∉ files := by
  intro F
  induction F with
  | zero =>
    intro c fn h
    rcases h with h | ⟨j, hj1, hj2, _⟩
    · exact ⟨fn, c, probe_free name files 0 c fn h, h⟩
    · omega
  | succ f ih =>
    intro c fn h
    by_cases hfn : fn ∈ files
    · have hnext : replaceCounter (natToDec (c + 1)) name ∉ files ∨
          ∃ j, c + 1 + 1 ≤ j ∧ j ≤ c + 1 + f ∧
            replaceCounter (natToDec j) name ∉ files := by
        rcases h with h | ⟨j, hj1, hj2, hjf⟩
        · exact absurd hfn h
        · by_cases hj : j = c + 1
          · subst hj
            exact Or.inl hjf
          · exact Or.inr ⟨j, by omega, by omega, hjf⟩
      have hrec := ih (c + 1) (replaceCounter (natToDec (c + 1)) name) hnext
      simpa [probe, hfn] using hrec
    · exact ⟨fn, c, probe_free name files (f + 1) c fn hfn, hfn⟩

/-- Pigeonhole: the renders of `files.length + 1` consecutive counters are
pairwise distinct, so not all of them can be taken by the finitely many
existing files. -/
theorem exists_free_render (name : List Nat) (hocc : 0 < countOcc name)
    (files : List (List Nat)) (c : Nat) :
    ∃ j, c + 1 ≤ j ∧ j ≤ c + (files.length + 1) ∧
      replaceCounter (natToDec j) name ∉ files := by
  by_contra hcon
  push_neg at hcon
  have hsub : (List.range' (c + 1) (files.length + 1)).map
      (fun j => replaceCounter (natToDec j) name) ⊆ files := by
    intro x hx
    rcases List.mem_map.mp hx with ⟨j, hj, rfl⟩
    rcases List.mem_range'_1.mp hj with ⟨h1, h2⟩
    exact hcon j h1 (by omega)
  have hnd : ((List.range' (c + 1) (files.length + 1)).map
      (fun j => replaceCounter (natToDec j) name)).Nodup :=
    (List.nodup_range' _ _).map (render_injective name hocc)
  have hle := (hnd.subperm hsub).length_le
  simp only [List.length_map, List.length_range'] at hle
  omega

/-- C3: filename/counter bookkeeping of `save_frame` (the concrete
two-save scenario of the spec, plus the general laws).  First save into an
empty directory with counter 0 and template `snap-$COUNTER$.jpg` writes
`snap-0.jpg` and leaves the counter at 1; with `snap-1.jpg` (and the first
save's `snap-0.jpg`) on disk the second save writes `snap-2.jpg` and
leaves the counter at 3.  Generally: a free initial candidate leaves the
counter untouched by the probing loop, each collision retry advances it by
exactly one, and a successful save adds exactly one more on top of
whatever the loop reached. -/
theorem C3_save_counter_semantics :
    (save_frame (strCodes "snap-$COUNTER$.jpg") (strCodes "snap-$COUNTER$.jpg")
        [] 0 9 = some (strCodes "snap-0.jpg", 1)) ∧
    (save_frame (strCodes "snap-$COUNTER$.jpg") (strCodes "snap-$COUNTER$.jpg")
        [strCodes "snap-0.jpg", strCodes "snap-1.jpg"] 1 9 =
      some (strCodes "snap-2.jpg", 3)) ∧
    (∀ (name now : List Nat) (files : List (List Nat)) (c fuel : Nat),
      replaceCounter (natToDec c) now ∉ files →
        get_filename name now files c fuel =
          some (replaceCounter (natToDec c) now, c)) ∧
    (∀ (name : List Nat) (files : List (List Nat)) (fuel c : Nat) (fn : List Nat),
      fn ∈ files →
        probe name files (fuel + 1) c fn =
          probe name files fuel (c + 1)
            (replaceCounter (natToDec (c + 1)) name)) ∧
    (∀ (name now : List Nat) (files : List (List Nat)) (c fuel c2 : Nat)
        (fn : List Nat),
      get_filename name now files c fuel = some (fn, c2) →
        save_frame name now files c fuel = some (fn, c2 + 1)) := by
  refine ⟨by decide, by decide, ?_, ?_, ?_⟩
  · intro name now files c fuel h
    exact probe_free name files fuel c _ h
  · intro name files fuel c fn h
    simp [probe, h]
  · intro name now files c fuel c2 fn h
    simp [save_frame, h]

/-- Witness for C3's general conjuncts at a concrete instance: template
`a$COUNTER$`, one unrelated existing file, counter 0. -/
theorem C3_save_counter_semantics_witness :
    (replaceCounter (natToDec 0) (strCodes "a$COUNTER$") ∉ [strCodes "zz"]) ∧
    (strCodes "zz" ∈ [strCodes "zz"]) ∧
    (get_filename (strCodes "a$COUNTER$") (strCodes "a$COUNTER$")
        [strCodes "zz"] 0 4 =
      some (replaceCounter (natToDec 0) (strCodes "a$COUNTER$"), 0)) ∧
    (probe (strCodes "a$COUNTER$") [strCodes "zz"] 3 0 (strCodes "zz") =
      probe (strCodes "a$COUNTER$") [strCodes "zz"] 2 1
        (replaceCounter (natToDec 1) (strCodes "a$COUNTER$"))) ∧
    (save_frame (strCodes "a$COUNTER$") (strCodes "a$COUNTER$")
        [strCodes "zz"] 0 4 =
      some (replaceCounter (natToDec 0) (strCodes "a$COUNTER$"), 0 + 1)) := by
  have h1 := C3_save_counter_semantics.2.2.1 (strCodes "a$COUNTER$")
    (strCodes "a$COUNTER$") [strCodes "zz"] 0 4 (by decide)
  have h2 := C3_save_counter_semantics.2.2.2.1 (strCodes "a$COUNTER$")
    [strCodes "zz"] 2 0 (strCodes "zz") (by decide)
  have h3 := C3_save_counter_semantics.2.2.2.2 (strCodes "a$COUNTER$")
    (strCodes "a$COUNTER$") [strCodes "zz"] 0 4 0
    (replaceCounter (natToDec 0) (strCodes "a$COUNTER$")) h1
  exact ⟨by decide, by decide, h1, h2, h3⟩

/-- C4: the claim that collision retries re-apply the time formatting is
false — and a code bug, since the same function formats the time for the
initial attempt precisely so that the template's directives (the doc
comment of `from_path_and_namepattern` advertises chrono format strings)
end up in the filename.  With template `%Y-$COUNTER$.jpg`, current year
2026 (so `now = 2026-$COUNTER$.jpg`) and `2026-0.jpg` already on disk, the
retry substitutes the counter into the RAW template and returns the
literal name `%Y-1.jpg` instead of `2026-1.jpg`. -/
theorem C4_retry_skips_time_format :
    get_filename (strCodes "%Y-$COUNTER$.jpg") (strCodes "2026-$COUNTER$.jpg")
        [strCodes "2026-0.jpg"] 0 9 = some (strCodes "%Y-1.jpg", 1) ∧
    strCodes "%Y-1.jpg" ≠ strCodes "2026-1.jpg" := by decide

/-- C7: the claim that `save_frame` creates the configured target
directory itself is false — and a code bug: the code calls
`create_dir_all` on `self.path.parent().unwrap()`, so only the parent of
the target directory (and its ancestors) is created, never the target
directory that the snapshot file is then written into.  With the default
output directory `captures`, the directories created are just `[]` (the
current directory), and `captures` is not among them; likewise for a
nested `out/snaps` only `[]` and `out` are created. -/
theorem C7_target_dir_not_created :
    ([strCodes "captures"] ∉ save_frame_dirs [strCodes "captures"]) ∧
    save_frame_dirs [strCodes "captures"] = [[]] ∧
    ([strCodes "out", strCodes "snaps"] ∉
      save_frame_dirs [strCodes "out", strCodes "snaps"]) ∧
    save_frame_dirs [strCodes "out", strCodes "snaps"] =
      [[], [strCodes "out"]] := by decide

/-- C10: for every template containing the `$COUNTER$` placeholder and
every finite set of existing files, the probing loop terminates —
`files.length + 1` retries always suffice to return `some` — because
distinct counters render to distinct candidate names (injectivity
conjunct), and the returned path is free at probing time. -/
theorem C10_probe_terminates (name now : List Nat) (files : List (List Nat))
    (c : Nat) (hocc : 0 < countOcc name) :
    Function.Injective (fun j => replaceCounter (natToDec j) name) ∧
    ∃ fn c2, get_filename name now files c (files.length + 1) = some (fn, c2) ∧
      fn ∉ files := by
  refine ⟨render_injective name hocc, ?_⟩
  rcases exists_free_render name hocc files c with ⟨j, hj1, hj2, hjf⟩
  exact probe_success name files (files.length + 1) c _
    (Or.inr ⟨j, hj1, hj2, hjf⟩)

/-- Witness for C10: template `a$COUNTER$` (placeholder present), two
existing files that both collide with the first candidates. -/
theorem C10_probe_terminates_witness :
    (0 < countOcc (strCodes "a$COUNTER$")) ∧
    (Function.Injective
      (fun j => replaceCounter (natToDec j) (strCodes "a$COUNTER$")) ∧
    ∃ fn c2, get_filename (strCodes "a$COUNTER$") (strCodes "a$COUNTER$")
        [strCodes "a0", strCodes "a1"] 0
        ([strCodes "a0", strCodes "a1"].length + 1) = some (fn, c2) ∧
      fn ∉ [strCodes "a0", strCodes "a1"]) :=
  ⟨by decide, C10_probe_terminates (strCodes "a$COUNTER$") (strCodes "a$COUNTER$")
    [strCodes "a0", strCodes "a1"] 0 (by decide)⟩

end CameraBot
